import Mathlib

/-!
A shallow embedding of the room-state reducer (`backend/app/state.py`) and the
viewer-snapshot operation (`backend/app/ws.py`) of the aura-music backend,
together with proofs about the reducer's reachable states.
Modelling conventions:
* JSON/Python values are the inductive `Val`; Python floats are modelled as
  rationals, dicts as association lists (first binding wins, like a Python
  dict whose keys are unique).
* All `now_ms()` reads during one `apply_command` call are modelled as the
  same instant `t`, passed explicitly.
* `random.shuffle` is modelled by an explicit function parameter `shuf`;
  genuine executions constrain it to produce permutations (`PermFn`).
* Fallible Python operations (`int(..)`, `float(..)`, iteration, hashing)
  return `Except PyErr`; a raised exception is `Except.error`.
-/

/-- A Python/JSON value. -/
inductive Val where
  | vnone : Val
  | vbool : Bool → Val
  | vint : Int → Val
  | vfloat : ℚ → Val
  | vstr : String → Val
  | vlist : List Val → Val
  | vdict : List (String × Val) → Val

abbrev PyDict := List (String × Val)

/-- Python `d.get(k)`: the first binding of `k`, or `None` when absent. -/
def dictGet (d : PyDict) (k : String) : Val :=
  match d.find? (fun p => p.fst == k) with
  | some p => p.snd
  | none => .vnone

/-- Python `k in d`. -/
def dictHas (d : PyDict) (k : String) : Bool :=
  d.any (fun p => p.fst == k)

/-- Python truthiness (`bool(v)`). -/
def pyTruthy : Val → Bool
  | .vnone => false
  | .vbool b => b
  | .vint n => n != 0
  | .vfloat q => q != 0
  | .vstr s => s != ""
  | .vlist l => !l.isEmpty
  | .vdict d => !d.isEmpty

/-- Python `a or b`. -/
def pyOr (a b : Val) : Val :=
  if pyTruthy a then a else b

/-- Numeric scalars (bool/int/float) compare by numeric value under Python
`==`; map them all to floats.  Non-scalars are untouched. -/
def scalNorm : Val → Val
  | .vbool b => .vfloat (if b then 1 else 0)
  | .vint n => .vfloat (n : ℚ)
  | v => v

/-- Python `==` on scalars (after numeric normalisation). -/
def scalEqb (a b : Val) : Bool :=
  match scalNorm a, scalNorm b with
  | .vnone, .vnone => true
  | .vfloat q1, .vfloat q2 => q1 == q2
  | .vstr s1, .vstr s2 => s1 == s2
  | _, _ => false

mutual

/-- Python `==` on values.  Dict equality is modelled pointwise on the
association lists (Python's is additionally insensitive to insertion order,
which no code path here depends on). -/
def valEqb : Val → Val → Bool
  | .vlist x, .vlist y => listEqb x y
  | .vdict x, .vdict y => dictEqb x y
  | a, b => scalEqb a b

def listEqb : List Val → List Val → Bool
  | [], [] => true
  | a :: as, b :: bs => valEqb a b && listEqb as bs
  | _, _ => false

def dictEqb : PyDict → PyDict → Bool
  | [], [] => true
  | (k1, v1) :: as, (k2, v2) :: bs => k1 == k2 && valEqb v1 v2 && dictEqb as bs
  | _, _ => false

end

/-- A raised Python exception. -/
inductive PyErr where
  | typeError
  | valueError
deriving Repr, DecidableEq

mutual

/-- Python `repr(v)` (string quoting unescaped; float formatting approximate —
no code path depends on the exact rendering of non-scalar or float values). -/
def pyRepr : Val → String
  | .vnone => "None"
  | .vbool true => "True"
  | .vbool false => "False"
  | .vint n => toString n
  | .vfloat q => toString q
  | .vstr s => "'" ++ s ++ "'"
  | .vlist l => "[" ++ pyReprList l ++ "]"
  | .vdict d => "\x7b" ++ pyReprDict d ++ "\x7d"

def pyReprList : List Val → String
  | [] => ""
  | [a] => pyRepr a
  | a :: rest => pyRepr a ++ ", " ++ pyReprList rest

def pyReprDict : PyDict → String
  | [] => ""
  | [(k, v)] => "'" ++ k ++ "': " ++ pyRepr v
  | (k, v) :: rest => "'" ++ k ++ "': " ++ pyRepr v ++ ", " ++ pyReprDict rest

end

/-- Python `str(v)`: like `repr` except strings render unquoted. -/
def pyStr : Val → String
  | .vstr s => s
  | v => pyRepr v

/-- Python `int(float)` truncates toward zero. -/
def pyTruncRat (q : ℚ) : Int :=
  if 0 ≤ q then ⌊q⌋ else -⌊-q⌋

/-- Value of a non-empty all-digit character run. -/
def digitsVal (l : List Char) : Option Nat :=
  if l ≠ [] ∧ l.all (fun c => c.isDigit) then
    some (l.foldl (fun n c => n * 10 + (c.toNat - 48)) 0)
  else none

/-- Python `int(str)` on decimal literals with optional sign (surrounding
whitespace and digit underscores, which Python also accepts, are not
modelled; no proof depends on string ints). -/
def parsePyInt (s : String) : Option Int :=
  match s.data with
  | '-' :: rest => (digitsVal rest).map (fun n => -(n : Int))
  | '+' :: rest => (digitsVal rest).map (fun n => (n : Int))
  | l => (digitsVal l).map (fun n => (n : Int))

/-- Split a character run at the first dot. -/
def splitDot : List Char → List Char × Option (List Char)
  | [] => ([], none)
  | '.' :: rest => ([], some rest)
  | c :: rest =>
    let p := splitDot rest
    (c :: p.1, p.2)

/-- Python `float(str)` on decimal literals with optional sign and fraction
("nan"/"inf"/exponents left unparsed; no proof depends on string floats). -/
def parsePyFloat (s : String) : Option ℚ :=
  let sb : ℚ × List Char :=
    match s.data with
    | '-' :: rest => (-1, rest)
    | '+' :: rest => (1, rest)
    | l => (1, l)
  match splitDot sb.2 with
  | (ip, none) => (digitsVal ip).map (fun n => sb.1 * n)
  | (ip, some fp) =>
    if ip = [] ∧ fp = [] then none
    else
      let ipn := if ip = [] then some 0 else digitsVal ip
      let fpn := if fp = [] then some 0 else digitsVal fp
      match ipn, fpn with
      | some a, some b => some (sb.1 * ((a : ℚ) + (b : ℚ) / ((10 : ℚ) ^ fp.length)))
      | _, _ => none

/-- Python `int(v)`: ints pass through, bools map to 0/1, floats truncate,
strings parse (ValueError on failure), everything else is a TypeError. -/
def pyInt : Val → Except PyErr Int
  | .vnone => .error .typeError
  | .vbool b => .ok (if b then 1 else 0)
  | .vint n => .ok n
  | .vfloat q => .ok (pyTruncRat q)
  | .vstr s =>
    match parsePyInt s with
    | some n => .ok n
    | none => .error .valueError
  | .vlist _ => .error .typeError
  | .vdict _ => .error .typeError

/-- Python `float(v)`. -/
def pyFloat : Val → Except PyErr ℚ
  | .vnone => .error .typeError
  | .vbool b => .ok (if b then 1 else 0)
  | .vint n => .ok (n : ℚ)
  | .vfloat q => .ok q
  | .vstr s =>
    match parsePyFloat s with
    | some q => .ok q
    | none => .error .valueError
  | .vlist _ => .error .typeError
  | .vdict _ => .error .typeError

/-- Hashable Python values (lists and dicts are not). -/
def hashable : Val → Bool
  | .vlist _ => false
  | .vdict _ => false
  | _ => true

/-- Python iteration (`for x in v`): lists yield elements, strings yield
one-character strings, dicts yield their keys; scalars raise TypeError. -/
def pyIterate : Val → Except PyErr (List Val)
  | .vlist l => .ok l
  | .vstr s => .ok (s.data.map (fun c => .vstr (String.mk [c])))
  | .vdict d => .ok (d.map (fun p => .vstr p.fst))
  | _ => .error .typeError

/-- Python `x in xs` by `==`. -/
def pyIn (x : Val) (xs : List Val) : Bool :=
  xs.any (fun r => valEqb x r)

/-- The authoritative per-room state (`default_room_state` documents the
fields).  Reachable states are well-typed, so the fields carry their stored
types rather than raw `Val`s; `currentSongId` stays a `Val` because song ids
are taken verbatim from client payloads (`None` is `Val.vnone`). -/
structure RoomState where
  revision : Nat
  queue : List PyDict
  originalQueue : List PyDict
  playMode : Int
  currentSongId : Val
  isPlaying : Bool
  currentTime : ℚ
  timeUpdatedAt : Int
  clockClientId : Option String
  creatorUserId : Val
  creatorName : Val

/-- Embeds `compute_effective_time(state, at_ms)`.  `float(state.get("currentTime")
or 0.0)` equals the stored float, and `int(state.get("timeUpdatedAt") or at)`
falls back to `at` only when the stored stamp is 0. -/
def compute_effective_time (s : RoomState) (at_ms : Int) : ℚ :=
  let base := s.currentTime
  let updatedAt := if s.timeUpdatedAt ≠ 0 then s.timeUpdatedAt else at_ms
  if !s.isPlaying then max 0 base
  else
    let delta : ℚ := ((max 0 (at_ms - updatedAt) : Int) : ℚ) / 1000
    max 0 (base + delta)

/-- Embeds `default_room_state()` with the wall clock `t` passed explicitly. -/
def default_room_state (t : Int) : RoomState :=
  { revision := 0
    queue := []
    originalQueue := []
    playMode := 0
    currentSongId := .vnone
    isPlaying := false
    currentTime := 0
    timeUpdatedAt := t
    clockClientId := none
    creatorUserId := .vnone
    creatorName := .vnone }

/-- The enumeration loop of `_find_index`, carrying the running index. -/
def findIdxGo (songId : Val) : List PyDict → Int → Int
  | [], _ => -1
  | song :: rest, i =>
    if valEqb (dictGet song "id") songId then i else findIdxGo songId rest (i + 1)

/-- Embeds `_find_index(queue, song_id)`: -1 for falsy ids, else the first index
whose song's `id` compares `==` to `song_id`, else -1. -/
def _find_index (queue : List PyDict) (songId : Val) : Int :=
  if !pyTruthy songId then -1 else findIdxGo songId queue 0

/-- The whitelist of song fields (`_sanitize_song`'s `allowed` set, here in a
fixed iteration order). -/
def allowedKeys : List String :=
  ["id", "title", "artist", "fileUrl", "coverUrl", "isNetease", "neteaseId", "album"]

/-- Embeds `_sanitize_song(song)`: keep only whitelisted fields. -/
def _sanitize_song (song : PyDict) : PyDict :=
  allowedKeys.filterMap (fun k => if dictHas song k then some (k, dictGet song k) else none)

/-- Embeds `_shuffle_keep_current(queue, current_song_id)`, with the permutation the
two `random.shuffle` calls would produce supplied as `shuf`.  The list
comprehension dropping position `current_idx` is `eraseIdx`. -/
def _shuffle_keep_current (shuf : List PyDict → List PyDict)
    (queue : List PyDict) (currentSongId : Val) : List PyDict :=
  if queue.isEmpty then []
  else
    let currentIdx := _find_index queue currentSongId
    if currentIdx = -1 then shuf queue
    else
      let current := (queue.get? currentIdx.toNat).getD []
      let rest := queue.eraseIdx currentIdx.toNat
      current :: shuf rest

/-- Embeds `_ensure_current_valid(state)` (its internal `now_ms()` is `t`). -/
def _ensure_current_valid (t : Int) (s : RoomState) : RoomState :=
  if s.queue.isEmpty then
    { s with currentSongId := .vnone, isPlaying := false, currentTime := 0,
             timeUpdatedAt := t, clockClientId := none }
  else if _find_index s.queue s.currentSongId = -1 then
    { s with currentSongId := dictGet (s.queue.headD []) "id",
             currentTime := 0, timeUpdatedAt := t }
  else s

/-- Embeds `bump()`: `int(state.get("revision") or 0) + 1` equals `revision + 1` for
the Nat-valued field. -/
def bump (s : RoomState) : RoomState :=
  { s with revision := s.revision + 1 }

/-- Embeds `[_sanitize_song(s) for s in songs if isinstance(s, dict)]`. -/
def sanitizeList (songs : List Val) : List PyDict :=
  songs.filterMap (fun v =>
    match v with
    | .vdict d => some (_sanitize_song d)
    | _ => none)

/-- The ADD_SONGS branch. -/
def cmdAddSongs (t : Int) (s : RoomState) (payload : PyDict) (cid : String) :
    Except PyErr RoomState :=
  match pyIterate (pyOr (dictGet payload "songs") (.vlist [])) with
  | .error e => .error e
  | .ok songs =>
    let sanitized := sanitizeList songs
    let prevLen := s.queue.length
    let s1 := { s with queue := s.queue ++ sanitized,
                       originalQueue := s.originalQueue ++ sanitized }
    let playSongId := dictGet payload "playSongId"
    let autoplayIfEmpty := pyTruthy (dictGet payload "autoplayIfEmpty")
    let s2 :=
      if pyTruthy playSongId then
        let idx := _find_index s1.queue (.vstr (pyStr playSongId))
        if idx ≠ -1 then
          { s1 with currentSongId := dictGet ((s1.queue.get? idx.toNat).getD []) "id",
                    currentTime := 0, timeUpdatedAt := t,
                    isPlaying := true, clockClientId := some cid }
        else s1
      else if !pyTruthy s1.currentSongId && !sanitized.isEmpty then
        let s3 := { s1 with currentSongId := dictGet (sanitized.headD []) "id",
                            currentTime := 0, timeUpdatedAt := t }
        if autoplayIfEmpty ∧ prevLen = 0 then
          { s3 with isPlaying := true, clockClientId := some cid }
        else s3
      else s1
    .ok (_ensure_current_valid t (bump s2))

/-- The two list comprehensions of REMOVE_SONGS: each song's id is hashed by
the `in` test (TypeError on unhashable ids) and kept when not in `ids`. -/
def removeFilterSongs (ids : List Val) : List PyDict → Except PyErr (List PyDict)
  | [] => .ok []
  | song :: rest =>
    let idv := dictGet song "id"
    if !hashable idv then .error .typeError
    else
      match removeFilterSongs ids rest with
      | .error e => .error e
      | .ok tail => .ok (if !pyIn idv ids then song :: tail else tail)

/-- The REMOVE_SONGS branch.  `set(...)` hashes every element (TypeError on
unhashable ones); set membership is `==`-based, so deduplication is
irrelevant and the ids stay a list. -/
def cmdRemoveSongs (t : Int) (s : RoomState) (payload : PyDict) :
    Except PyErr RoomState :=
  match pyIterate (pyOr (dictGet payload "ids") (.vlist [])) with
  | .error e => .error e
  | .ok idsRaw =>
    if !idsRaw.all (fun v => hashable v) then .error .typeError
    else
      match removeFilterSongs idsRaw s.queue with
      | .error e => .error e
      | .ok q2 =>
        match removeFilterSongs idsRaw s.originalQueue with
        | .error e => .error e
        | .ok oq2 =>
          .ok (_ensure_current_valid t (bump { s with queue := q2, originalQueue := oq2 }))

/-- The PLAY_INDEX branch. -/
def cmdPlayIndex (t : Int) (s : RoomState) (payload : PyDict) (cid : String) :
    Except PyErr RoomState :=
  match pyInt (pyOr (dictGet payload "index") (.vint 0)) with
  | .error e => .error e
  | .ok idx =>
    if 0 ≤ idx ∧ idx < (s.queue.length : Int) then
      .ok (bump { s with currentSongId := dictGet ((s.queue.get? idx.toNat).getD []) "id",
                         isPlaying := true, currentTime := 0, timeUpdatedAt := t,
                         clockClientId := some cid })
    else .ok s

/-- Embeds `float(payload.get(key) or effective_time or 0.0)`. -/
def transportTime (payload : PyDict) (key : String) (eff : ℚ) : Except PyErr ℚ :=
  pyFloat (pyOr (dictGet payload key) (pyOr (.vfloat eff) (.vfloat 0)))

/-- The PLAY branch. -/
def cmdPlay (t : Int) (s : RoomState) (payload : PyDict) (cid : String) (eff : ℚ) :
    Except PyErr RoomState :=
  match transportTime payload "currentTime" eff with
  | .error e => .error e
  | .ok ct =>
    .ok (bump { s with isPlaying := true, currentTime := ct,
                       timeUpdatedAt := t, clockClientId := some cid })

/-- The PAUSE branch. -/
def cmdPause (t : Int) (s : RoomState) (payload : PyDict) (cid : String) (eff : ℚ) :
    Except PyErr RoomState :=
  match transportTime payload "currentTime" eff with
  | .error e => .error e
  | .ok ct =>
    .ok (bump { s with isPlaying := false, currentTime := ct,
                       timeUpdatedAt := t, clockClientId := some cid })

/-- The TOGGLE_PLAY branch. -/
def cmdTogglePlay (t : Int) (s : RoomState) (payload : PyDict) (cid : String) (eff : ℚ) :
    Except PyErr RoomState :=
  match transportTime payload "currentTime" eff with
  | .error e => .error e
  | .ok ct =>
    .ok (bump { s with isPlaying := !s.isPlaying, currentTime := ct,
                       timeUpdatedAt := t, clockClientId := some cid })

/-- The SEEK branch. -/
def cmdSeek (t : Int) (s : RoomState) (payload : PyDict) (cid : String) :
    Except PyErr RoomState :=
  match pyFloat (pyOr (dictGet payload "time") (.vfloat 0)) with
  | .error e => .error e
  | .ok ct =>
    .ok (bump { s with currentTime := ct, timeUpdatedAt := t, clockClientId := some cid })

/-- The PROGRESS branch: accepted only when no clock owner is set or the
sender owns the clock. -/
def cmdProgress (t : Int) (s : RoomState) (payload : PyDict) (cid : String) (eff : ℚ) :
    Except PyErr RoomState :=
  if s.clockClientId = none ∨ s.clockClientId = some cid then
    match transportTime payload "time" eff with
    | .error e => .error e
    | .ok ct =>
      .ok (bump { s with currentTime := ct, timeUpdatedAt := t, clockClientId := some cid })
  else .ok s

/-- The SET_PLAYMODE branch.  `int(state.get("playMode") or 0)` equals the
stored int, and `state["queue"][0].get("id") if state["queue"] else None` is
`dictGet (headD []) "id"` (the `.get` of the empty dict being `None`). -/
def cmdSetPlaymode (shuf : List PyDict → List PyDict) (t : Int) (s : RoomState)
    (payload : PyDict) : Except PyErr RoomState :=
  match pyInt (pyOr (dictGet payload "playMode") (.vint 0)) with
  | .error e => .error e
  | .ok mode =>
    let prevMode := s.playMode
    let queue := s.queue
    let original := s.originalQueue
    let currentSongId := s.currentSongId
    if mode = prevMode then .ok s
    else
      let s1 :=
        if mode = 2 then
          let s2 := if prevMode ≠ 2 ∧ original.isEmpty then { s with originalQueue := queue } else s
          { s2 with queue := _shuffle_keep_current shuf queue currentSongId }
        else
          if prevMode = 2 ∧ !original.isEmpty then
            let s2 := { s with queue := original }
            if pyTruthy currentSongId ∧ _find_index s2.queue currentSongId = -1 then
              { s2 with currentSongId := dictGet (s2.queue.headD []) "id" }
            else s2
          else s
      .ok (_ensure_current_valid t (bump { s1 with playMode := mode }))

/-- The NEXT/PREV branch (`isNext` selects the direction). -/
def cmdNextPrev (t : Int) (s : RoomState) (cid : String) (isNext : Bool) :
    Except PyErr RoomState :=
  if s.queue.isEmpty then .ok s
  else
    let playMode := s.playMode
    let found := _find_index s.queue s.currentSongId
    let currentIdx := if found = -1 then 0 else found
    if playMode = 1 then
      .ok (bump { s with currentTime := 0, timeUpdatedAt := t,
                         isPlaying := true, clockClientId := some cid })
    else
      let len : Int := s.queue.length
      let nextIdx := if isNext then (currentIdx + 1) % len else (currentIdx - 1 + len) % len
      .ok (bump { s with currentSongId := dictGet ((s.queue.get? nextIdx.toNat).getD []) "id",
                         currentTime := 0, timeUpdatedAt := t,
                         isPlaying := true, clockClientId := some cid })

/-- Embeds `apply_command(state, command_type, payload, client_id)`: the reducer of
`backend/app/state.py`, with the wall clock `t` and the shuffle permutation
`shuf` passed explicitly. -/
def apply_command (shuf : List PyDict → List PyDict) (t : Int) (s : RoomState)
    (commandType : String) (payload : PyDict) (clientId : String) :
    Except PyErr RoomState :=
  let effectiveTime := compute_effective_time s t
  if commandType = "ADD_SONGS" then cmdAddSongs t s payload clientId
  else if commandType = "REMOVE_SONGS" then cmdRemoveSongs t s payload
  else if commandType = "PLAY_INDEX" then cmdPlayIndex t s payload clientId
  else if commandType = "PLAY" then cmdPlay t s payload clientId effectiveTime
  else if commandType = "PAUSE" then cmdPause t s payload clientId effectiveTime
  else if commandType = "TOGGLE_PLAY" then cmdTogglePlay t s payload clientId effectiveTime
  else if commandType = "SEEK" then cmdSeek t s payload clientId
  else if commandType = "PROGRESS" then cmdProgress t s payload clientId effectiveTime
  else if commandType = "SET_PLAYMODE" then cmdSetPlaymode shuf t s payload
  else if commandType = "NEXT" ∨ commandType = "PREV" then
    cmdNextPrev t s clientId (commandType = "NEXT")
  else .ok s

/-- Asserts `shuf` is a genuine outcome of `random.shuffle`: a permutation. -/
def PermFn (shuf : List PyDict → List PyDict) : Prop :=
  ∀ l, List.Perm (shuf l) l

/-- One serialized command application on a room: any command name, payload
dict, client id, wall-clock time and shuffle permutation, provided the call
returned (rather than raised). -/
inductive Step : RoomState → RoomState → Prop where
  | mk (shuf : List PyDict → List PyDict) (t : Int) (s : RoomState)
      (commandType : String) (payload : PyDict) (clientId : String) (s' : RoomState)
      (hperm : PermFn shuf)
      (happ : apply_command shuf t s commandType payload clientId = .ok s') :
      Step s s'

/-- States reachable from the default room state by command applications. -/
def Reachable (s : RoomState) : Prop :=
  ∃ t0 : Int, Relation.ReflTransGen Step (default_room_state t0) s

/-- The accumulation loop of `get_viewers_snapshot` (`ws.py`): the first
creator-flagged record is kept, later ones are skipped, unflagged records
are appended in order. -/
def viewersGo : List PyDict → Option PyDict → List PyDict → Option PyDict × List PyDict
  | [], creator, acc => (creator, acc)
  | v :: rest, creator, acc =>
    if pyTruthy (dictGet v "isCreator") then
      viewersGo rest (if creator.isNone then some v else creator) acc
    else
      viewersGo rest creator (acc ++ [v])

/-- Embeds `ConnectionManager.get_viewers_snapshot`, reduced to its data content:
the `creator` and `viewers` entries of the produced message. -/
def get_viewers_snapshot (roomViewers : List PyDict) : Option PyDict × List PyDict :=
  viewersGo roomViewers none []

def idShuf : List PyDict → List PyDict := fun l => l

def songA : PyDict := [("id", .vstr "A"), ("title", .vstr "song a")]
def songB : PyDict := [("id", .vstr "B"), ("title", .vstr "song b")]
def songC : PyDict := [("id", .vstr "C"), ("title", .vstr "song c")]

def st3 : RoomState :=
  { revision := 4, queue := [songA, songB, songC], originalQueue := [songA, songB, songC],
    playMode := 0, currentSongId := .vstr "C", isPlaying := false,
    currentTime := 7, timeUpdatedAt := 100, clockClientId := some "c1",
    creatorUserId := .vnone, creatorName := .vnone }

def d0play : RoomState :=
  { (default_room_state 0) with
      revision := 1, isPlaying := true,
      timeUpdatedAt := 200, clockClientId := some "c2" }

/-- The queue/current-song coherence invariant of reachable states:
an empty queue has no current song, a non-empty queue's `currentSongId`
compares `==` to the id of some queued song. -/
def StateInv (s : RoomState) : Prop :=
  (s.queue = [] → s.currentSongId = .vnone) ∧
  (s.queue ≠ [] → ∃ song ∈ s.queue, valEqb (dictGet song "id") s.currentSongId = true)

def stAB : RoomState :=
  { revision := 1, queue := [songA, songB], originalQueue := [songA, songB],
    playMode := 0, currentSongId := .vstr "A", isPlaying := true,
    currentTime := 0, timeUpdatedAt := 5, clockClientId := some "c1",
    creatorUserId := .vnone, creatorName := .vnone }

/-- A room state with its revision counter blanked, i.e. "the rest of the
state" beside `revision`. -/
def stateRest (s : RoomState) : RoomState :=
  { s with revision := 0 }

def st3sh : RoomState :=
  { st3 with revision := 5, playMode := 2, queue := [songC, songB, songA] }

def st3back : RoomState :=
  { st3 with revision := 6 }

def st3next : RoomState :=
  { st3 with revision := 5, currentSongId := .vstr "A", currentTime := 0,
             timeUpdatedAt := 200, isPlaying := true, clockClientId := some "c2" }

def c8out : RoomState :=
  { st3 with revision := 5, currentTime := 7, timeUpdatedAt := 200, clockClientId := some "c2" }

def viewerA : PyDict := [("displayName", .vstr "a"), ("isCreator", .vbool true)]
def viewerB : PyDict := [("displayName", .vstr "b"), ("isCreator", .vbool true)]

def c10st : RoomState :=
  { (default_room_state 0) with
      revision := 1, currentTime := 5, timeUpdatedAt := 100, clockClientId := some "c1" }

def c10out : RoomState :=
  { (default_room_state 0) with revision := 2, timeUpdatedAt := 200 }

/-- A payload field value whose `int(...)`/`float(...)` conversion cannot
raise: either falsy (replaced by the branch's default) or a number. -/
def numField : Val → Bool
  | .vbool _ => true
  | .vint _ => true
  | .vfloat _ => true
  | v => !pyTruthy v

/-- A `songs` field value that can be iterated (or is falsy). -/
def songsOk : Val → Bool
  | .vlist _ => true
  | .vstr _ => true
  | .vdict _ => true
  | v => !pyTruthy v

/-- An `ids` field value that can be iterated into hashable elements (or is
falsy). -/
def idsOk : Val → Bool
  | .vlist l => l.all hashable
  | .vstr _ => true
  | .vdict _ => true
  | v => !pyTruthy v

/-- Sufficient payload well-formedness per command for `apply_command` not
to raise. -/
def PayloadSafe (c : String) (p : PyDict) : Bool :=
  if c = "ADD_SONGS" then songsOk (dictGet p "songs")
  else if c = "REMOVE_SONGS" then idsOk (dictGet p "ids")
  else if c = "PLAY_INDEX" then numField (dictGet p "index")
  else if c = "PLAY" ∨ c = "PAUSE" ∨ c = "TOGGLE_PLAY" then numField (dictGet p "currentTime")
  else if c = "SEEK" ∨ c = "PROGRESS" then numField (dictGet p "time")
  else if c = "SET_PLAYMODE" then numField (dictGet p "playMode")
  else true

/-- States whose queued song ids are hashable (REMOVE_SONGS hashes every
queued id when testing membership). -/
def SafeState (s : RoomState) : Bool :=
  (s.queue ++ s.originalQueue).all (fun song => hashable (dictGet song "id"))

def knownCommands : List String :=
  ["ADD_SONGS", "REMOVE_SONGS", "PLAY_INDEX", "PLAY", "PAUSE", "TOGGLE_PLAY",
   "SEEK", "PROGRESS", "SET_PLAYMODE", "NEXT", "PREV"]

mutual

theorem valEqb_refl : ∀ a, valEqb a a = true
  | .vnone => by simp [valEqb, scalEqb, scalNorm]
  | .vbool b => by cases b <;> simp [valEqb, scalEqb, scalNorm]
  | .vint n => by simp [valEqb, scalEqb, scalNorm]
  | .vfloat q => by simp [valEqb, scalEqb, scalNorm]
  | .vstr s => by simp [valEqb, scalEqb, scalNorm]
  | .vlist l => by simp [valEqb]; exact listEqb_refl l
  | .vdict d => by simp [valEqb]; exact dictEqb_refl d

theorem listEqb_refl : ∀ l, listEqb l l = true
  | [] => rfl
  | a :: as => by simp [listEqb]; exact ⟨valEqb_refl a, listEqb_refl as⟩

theorem dictEqb_refl : ∀ d, dictEqb d d = true
  | [] => rfl
  | (k, v) :: rest => by simp [dictEqb]; exact ⟨valEqb_refl v, dictEqb_refl rest⟩

end

theorem findIdxGo_ne_neg_one {v : Val} : ∀ (q : List PyDict) (i : Int),
    findIdxGo v q i ≠ -1 → ∃ song ∈ q, valEqb (dictGet song "id") v = true
  | [], i, h => absurd rfl h
  | song :: rest, i, h => by
    by_cases hs : valEqb (dictGet song "id") v
    · exact ⟨song, List.mem_cons_self song rest, hs⟩
    · have h2 : findIdxGo v rest (i + 1) ≠ -1 := by
        simpa [findIdxGo, hs] using h
      obtain ⟨s2, hmem, heq⟩ := findIdxGo_ne_neg_one rest (i + 1) h2
      exact ⟨s2, List.mem_cons_of_mem song hmem, heq⟩

theorem find_index_ne_neg_one {q : List PyDict} {v : Val}
    (h : _find_index q v ≠ -1) : ∃ song ∈ q, valEqb (dictGet song "id") v = true := by
  unfold _find_index at h
  by_cases ht : pyTruthy v
  · exact findIdxGo_ne_neg_one q 0 (by simpa [ht] using h)
  · simp [ht] at h

theorem findIdxGo_bounds (v : Val) : ∀ (q : List PyDict) (i : Int),
    findIdxGo v q i ≠ -1 → i ≤ findIdxGo v q i ∧ findIdxGo v q i < i + q.length
  | [], i, h => absurd rfl h
  | song :: rest, i, h => by
    by_cases hs : valEqb (dictGet song "id") v
    · simp only [findIdxGo, hs, if_true, List.length_cons]
      push_cast
      omega
    · have h2 : findIdxGo v rest (i + 1) ≠ -1 := by
        simpa [findIdxGo, hs] using h
      have ih := findIdxGo_bounds v rest (i + 1) h2
      simp only [findIdxGo, hs, if_false, List.length_cons] at *
      push_cast at ih ⊢
      omega

theorem find_index_bounds {q : List PyDict} {v : Val}
    (h : _find_index q v ≠ -1) :
    0 ≤ _find_index q v ∧ _find_index q v < q.length := by
  unfold _find_index at h ⊢
  by_cases ht : pyTruthy v
  · have := findIdxGo_bounds v q 0 (by simpa [ht] using h)
    simpa [ht] using ⟨this.1, by omega⟩
  · simp [ht] at h

theorem headD_mem : ∀ {q : List PyDict}, q ≠ [] → q.headD [] ∈ q
  | [], h => absurd rfl h
  | song :: rest, _ => List.mem_cons_self song rest

theorem getElem?_getD_mem {q : List PyDict} {n : Nat} (h : n < q.length) :
    (q.get? n).getD [] ∈ q := by
  have h1 : q.get? n = some (q.get ⟨n, h⟩) := List.get?_eq_get h
  rw [h1]
  exact List.get_mem q n h

theorem ensure_inv (t : Int) (s : RoomState) : StateInv (_ensure_current_valid t s) := by
  unfold _ensure_current_valid
  split_ifs with h1 h2
  · constructor
    · intro _; rfl
    · intro hne
      exact absurd (List.isEmpty_iff.mp h1) (by simpa using hne)
  · constructor
    · intro he
      exact absurd (List.isEmpty_iff.mpr (by simpa using he)) (by simpa using h1)
    · intro _
      refine ⟨s.queue.headD [], ?_, valEqb_refl _⟩
      exact headD_mem (by simpa [List.isEmpty_iff] using h1)
  · constructor
    · intro he
      exact absurd (List.isEmpty_iff.mpr he) (by simpa using h1)
    · intro _
      exact find_index_ne_neg_one h2

theorem inv_addSongs {t : Int} {s : RoomState} {p : PyDict} {cid : String} {s' : RoomState}
    (h : cmdAddSongs t s p cid = .ok s') : StateInv s' := by
  unfold cmdAddSongs at h
  split at h
  · simp at h
  · injection h with h
    rw [← h]
    exact ensure_inv _ _

theorem inv_removeSongs {t : Int} {s : RoomState} {p : PyDict} {s' : RoomState}
    (h : cmdRemoveSongs t s p = .ok s') : StateInv s' := by
  unfold cmdRemoveSongs at h
  split at h
  · simp at h
  · split at h
    · simp at h
    · split at h
      · simp at h
      · split at h
        · simp at h
        · injection h with h
          rw [← h]
          exact ensure_inv _ _

theorem inv_setPlaymode {shuf : List PyDict → List PyDict} {t : Int} {s : RoomState}
    {p : PyDict} {s' : RoomState} (hs : StateInv s)
    (h : cmdSetPlaymode shuf t s p = .ok s') : StateInv s' := by
  unfold cmdSetPlaymode at h
  split at h
  · simp at h
  · dsimp only at h
    repeat split at h
    all_goals first
    | (injection h with h; rw [← h]; exact hs)
    | (injection h with h; rw [← h]; exact ensure_inv _ _)

theorem inv_playIndex {t : Int} {s : RoomState} {p : PyDict} {cid : String} {s' : RoomState}
    (hs : StateInv s) (h : cmdPlayIndex t s p cid = .ok s') : StateInv s' := by
  unfold cmdPlayIndex at h
  split at h
  · simp at h
  · rename_i idx heq
    split at h
    · rename_i hrange
      injection h with h
      rw [← h]
      constructor
      · intro he
        simp only [bump] at he
        rw [he] at hrange
        simp at hrange
        omega
      · intro _
        have hlt : idx.toNat < s.queue.length := by omega
        refine ⟨(s.queue.get? idx.toNat).getD [], ?_, ?_⟩
        · simpa [bump] using getElem?_getD_mem hlt
        · simp [bump]
          exact valEqb_refl _
    · injection h with h
      rw [← h]
      exact hs

theorem inv_play {t : Int} {s : RoomState} {p : PyDict} {cid : String} {eff : ℚ}
    {s' : RoomState} (hs : StateInv s) (h : cmdPlay t s p cid eff = .ok s') : StateInv s' := by
  unfold cmdPlay at h
  split at h
  · simp at h
  · injection h with h
    rw [← h]
    simpa [StateInv, bump] using hs

theorem inv_pause {t : Int} {s : RoomState} {p : PyDict} {cid : String} {eff : ℚ}
    {s' : RoomState} (hs : StateInv s) (h : cmdPause t s p cid eff = .ok s') : StateInv s' := by
  unfold cmdPause at h
  split at h
  · simp at h
  · injection h with h
    rw [← h]
    simpa [StateInv, bump] using hs

theorem inv_toggle {t : Int} {s : RoomState} {p : PyDict} {cid : String} {eff : ℚ}
    {s' : RoomState} (hs : StateInv s) (h : cmdTogglePlay t s p cid eff = .ok s') :
    StateInv s' := by
  unfold cmdTogglePlay at h
  split at h
  · simp at h
  · injection h with h
    rw [← h]
    simpa [StateInv, bump] using hs

theorem inv_seek {t : Int} {s : RoomState} {p : PyDict} {cid : String}
    {s' : RoomState} (hs : StateInv s) (h : cmdSeek t s p cid = .ok s') : StateInv s' := by
  unfold cmdSeek at h
  split at h
  · simp at h
  · injection h with h
    rw [← h]
    simpa [StateInv, bump] using hs

theorem inv_progress {t : Int} {s : RoomState} {p : PyDict} {cid : String} {eff : ℚ}
    {s' : RoomState} (hs : StateInv s) (h : cmdProgress t s p cid eff = .ok s') :
    StateInv s' := by
  unfold cmdProgress at h
  split at h
  · split at h
    · simp at h
    · injection h with h
      rw [← h]
      simpa [StateInv, bump] using hs
  · injection h with h
    rw [← h]
    exact hs

theorem inv_nextPrev {t : Int} {s : RoomState} {cid : String} {isNext : Bool}
    {s' : RoomState} (hs : StateInv s) (h : cmdNextPrev t s cid isNext = .ok s') :
    StateInv s' := by
  unfold cmdNextPrev at h
  split at h
  · injection h with h
    rw [← h]
    exact hs
  · rename_i hne
    have hnil : s.queue ≠ [] := by simpa [List.isEmpty_iff] using hne
    have hlen : 0 < s.queue.length := List.length_pos.mpr hnil
    have hidx : ∀ x : Int, (x % (s.queue.length : Int)).toNat < s.queue.length := by
      intro x
      have h1 : 0 ≤ x % (s.queue.length : Int) := Int.emod_nonneg x (by omega)
      have h2 : x % (s.queue.length : Int) < (s.queue.length : Int) :=
        Int.emod_lt_of_pos x (by omega)
      omega
    dsimp only at h
    repeat split at h
    all_goals injection h with h
    all_goals rw [← h]
    all_goals first
    | (simpa [StateInv, bump] using hs)
    | (simp only [StateInv, bump]
       refine ⟨fun he => absurd he hnil, fun _ => ⟨_, ?_, valEqb_refl _⟩⟩
       refine getElem?_getD_mem ?_
       split <;> exact hidx _)

theorem apply_command_inv {shuf : List PyDict → List PyDict} {t : Int} {s : RoomState}
    {c : String} {p : PyDict} {cid : String} {s' : RoomState}
    (hs : StateInv s) (h : apply_command shuf t s c p cid = .ok s') : StateInv s' := by
  simp only [apply_command] at h
  by_cases h1 : c = "ADD_SONGS"
  · rw [if_pos h1] at h; exact inv_addSongs h
  rw [if_neg h1] at h
  by_cases h2 : c = "REMOVE_SONGS"
  · rw [if_pos h2] at h; exact inv_removeSongs h
  rw [if_neg h2] at h
  by_cases h3 : c = "PLAY_INDEX"
  · rw [if_pos h3] at h; exact inv_playIndex hs h
  rw [if_neg h3] at h
  by_cases h4 : c = "PLAY"
  · rw [if_pos h4] at h; exact inv_play hs h
  rw [if_neg h4] at h
  by_cases h5 : c = "PAUSE"
  · rw [if_pos h5] at h; exact inv_pause hs h
  rw [if_neg h5] at h
  by_cases h6 : c = "TOGGLE_PLAY"
  · rw [if_pos h6] at h; exact inv_toggle hs h
  rw [if_neg h6] at h
  by_cases h7 : c = "SEEK"
  · rw [if_pos h7] at h; exact inv_seek hs h
  rw [if_neg h7] at h
  by_cases h8 : c = "PROGRESS"
  · rw [if_pos h8] at h; exact inv_progress hs h
  rw [if_neg h8] at h
  by_cases h9 : c = "SET_PLAYMODE"
  · rw [if_pos h9] at h; exact inv_setPlaymode hs h
  rw [if_neg h9] at h
  by_cases h10 : c = "NEXT" ∨ c = "PREV"
  · rw [if_pos h10] at h; exact inv_nextPrev hs h
  rw [if_neg h10] at h
  injection h with h
  rw [← h]
  exact hs

theorem default_inv (t0 : Int) : StateInv (default_room_state t0) := by
  constructor
  · intro _; rfl
  · intro hne; exact absurd rfl hne

theorem reachable_inv {s : RoomState} (h : Reachable s) : StateInv s := by
  obtain ⟨t0, hrt⟩ := h
  induction hrt with
  | refl => exact default_inv t0
  | tail _ hstep ih =>
    cases hstep with
    | mk shuf t s1 c p cid s2 hperm happ => exact apply_command_inv ih happ

theorem ensure_revision (t : Int) (s : RoomState) :
    (_ensure_current_valid t s).revision = s.revision := by
  unfold _ensure_current_valid
  split_ifs <;> rfl

theorem ensure_queue (t : Int) (s : RoomState) :
    (_ensure_current_valid t s).queue = s.queue := by
  unfold _ensure_current_valid
  split_ifs <;> rfl

theorem ensure_originalQueue (t : Int) (s : RoomState) :
    (_ensure_current_valid t s).originalQueue = s.originalQueue := by
  unfold _ensure_current_valid
  split_ifs <;> rfl

theorem ensure_playMode (t : Int) (s : RoomState) :
    (_ensure_current_valid t s).playMode = s.playMode := by
  unfold _ensure_current_valid
  split_ifs <;> rfl

theorem rev_addSongs {t : Int} {s : RoomState} {p : PyDict} {cid : String} {s' : RoomState}
    (h : cmdAddSongs t s p cid = .ok s') : s' = s ∨ s'.revision = s.revision + 1 := by
  right
  unfold cmdAddSongs at h
  split at h
  · simp at h
  · injection h with h
    rw [← h, ensure_revision]
    dsimp only
    repeat' split
    all_goals simp [bump]

theorem rev_removeSongs {t : Int} {s : RoomState} {p : PyDict} {s' : RoomState}
    (h : cmdRemoveSongs t s p = .ok s') : s' = s ∨ s'.revision = s.revision + 1 := by
  right
  unfold cmdRemoveSongs at h
  split at h
  · simp at h
  · split at h
    · simp at h
    · split at h
      · simp at h
      · split at h
        · simp at h
        · injection h with h
          rw [← h, ensure_revision]
          simp [bump]

theorem rev_playIndex {t : Int} {s : RoomState} {p : PyDict} {cid : String} {s' : RoomState}
    (h : cmdPlayIndex t s p cid = .ok s') : s' = s ∨ s'.revision = s.revision + 1 := by
  unfold cmdPlayIndex at h
  split at h
  · simp at h
  · split at h
    · right
      injection h with h
      rw [← h]
      simp [bump]
    · left
      injection h with h
      rw [← h]

theorem rev_play {t : Int} {s : RoomState} {p : PyDict} {cid : String} {eff : ℚ}
    {s' : RoomState} (h : cmdPlay t s p cid eff = .ok s') :
    s' = s ∨ s'.revision = s.revision + 1 := by
  right
  unfold cmdPlay at h
  split at h
  · simp at h
  · injection h with h
    rw [← h]
    simp [bump]

theorem rev_pause {t : Int} {s : RoomState} {p : PyDict} {cid : String} {eff : ℚ}
    {s' : RoomState} (h : cmdPause t s p cid eff = .ok s') :
    s' = s ∨ s'.revision = s.revision + 1 := by
  right
  unfold cmdPause at h
  split at h
  · simp at h
  · injection h with h
    rw [← h]
    simp [bump]

theorem rev_toggle {t : Int} {s : RoomState} {p : PyDict} {cid : String} {eff : ℚ}
    {s' : RoomState} (h : cmdTogglePlay t s p cid eff = .ok s') :
    s' = s ∨ s'.revision = s.revision + 1 := by
  right
  unfold cmdTogglePlay at h
  split at h
  · simp at h
  · injection h with h
    rw [← h]
    simp [bump]

theorem rev_seek {t : Int} {s : RoomState} {p : PyDict} {cid : String}
    {s' : RoomState} (h : cmdSeek t s p cid = .ok s') :
    s' = s ∨ s'.revision = s.revision + 1 := by
  right
  unfold cmdSeek at h
  split at h
  · simp at h
  · injection h with h
    rw [← h]
    simp [bump]

theorem rev_progress {t : Int} {s : RoomState} {p : PyDict} {cid : String} {eff : ℚ}
    {s' : RoomState} (h : cmdProgress t s p cid eff = .ok s') :
    s' = s ∨ s'.revision = s.revision + 1 := by
  unfold cmdProgress at h
  split at h
  · split at h
    · simp at h
    · right
      injection h with h
      rw [← h]
      simp [bump]
  · left
    injection h with h
    rw [← h]

theorem rev_setPlaymode {shuf : List PyDict → List PyDict} {t : Int} {s : RoomState}
    {p : PyDict} {s' : RoomState} (h : cmdSetPlaymode shuf t s p = .ok s') :
    s' = s ∨ s'.revision = s.revision + 1 := by
  unfold cmdSetPlaymode at h
  split at h
  · simp at h
  · dsimp only at h
    repeat split at h
    all_goals injection h with h
    all_goals first
    | (left; exact h.symm)
    | (right; rw [← h, ensure_revision]; simp only [bump]; simp [apply_ite RoomState.revision])

theorem rev_nextPrev {t : Int} {s : RoomState} {cid : String} {isNext : Bool}
    {s' : RoomState} (h : cmdNextPrev t s cid isNext = .ok s') :
    s' = s ∨ s'.revision = s.revision + 1 := by
  unfold cmdNextPrev at h
  split at h
  · left
    injection h with h
    rw [← h]
  · dsimp only at h
    repeat split at h
    all_goals injection h with h
    all_goals right
    all_goals rw [← h]
    all_goals simp [bump]

theorem apply_command_rev {shuf : List PyDict → List PyDict} {t : Int} {s : RoomState}
    {c : String} {p : PyDict} {cid : String} {s' : RoomState}
    (h : apply_command shuf t s c p cid = .ok s') :
    s' = s ∨ s'.revision = s.revision + 1 := by
  simp only [apply_command] at h
  by_cases h1 : c = "ADD_SONGS"
  · rw [if_pos h1] at h; exact rev_addSongs h
  rw [if_neg h1] at h
  by_cases h2 : c = "REMOVE_SONGS"
  · rw [if_pos h2] at h; exact rev_removeSongs h
  rw [if_neg h2] at h
  by_cases h3 : c = "PLAY_INDEX"
  · rw [if_pos h3] at h; exact rev_playIndex h
  rw [if_neg h3] at h
  by_cases h4 : c = "PLAY"
  · rw [if_pos h4] at h; exact rev_play h
  rw [if_neg h4] at h
  by_cases h5 : c = "PAUSE"
  · rw [if_pos h5] at h; exact rev_pause h
  rw [if_neg h5] at h
  by_cases h6 : c = "TOGGLE_PLAY"
  · rw [if_pos h6] at h; exact rev_toggle h
  rw [if_neg h6] at h
  by_cases h7 : c = "SEEK"
  · rw [if_pos h7] at h; exact rev_seek h
  rw [if_neg h7] at h
  by_cases h8 : c = "PROGRESS"
  · rw [if_pos h8] at h; exact rev_progress h
  rw [if_neg h8] at h
  by_cases h9 : c = "SET_PLAYMODE"
  · rw [if_pos h9] at h; exact rev_setPlaymode h
  rw [if_neg h9] at h
  by_cases h10 : c = "NEXT" ∨ c = "PREV"
  · rw [if_pos h10] at h; exact rev_nextPrev h
  rw [if_neg h10] at h
  left
  injection h with h
  rw [← h]

theorem apply_command_play (shuf : List PyDict → List PyDict) (t : Int) (s : RoomState)
    (p : PyDict) (cid : String) :
    apply_command shuf t s "PLAY" p cid = cmdPlay t s p cid (compute_effective_time s t) := rfl

theorem apply_command_pause (shuf : List PyDict → List PyDict) (t : Int) (s : RoomState)
    (p : PyDict) (cid : String) :
    apply_command shuf t s "PAUSE" p cid = cmdPause t s p cid (compute_effective_time s t) := rfl

theorem apply_command_toggle (shuf : List PyDict → List PyDict) (t : Int) (s : RoomState)
    (p : PyDict) (cid : String) :
    apply_command shuf t s "TOGGLE_PLAY" p cid
      = cmdTogglePlay t s p cid (compute_effective_time s t) := rfl

theorem apply_command_progress (shuf : List PyDict → List PyDict) (t : Int) (s : RoomState)
    (p : PyDict) (cid : String) :
    apply_command shuf t s "PROGRESS" p cid
      = cmdProgress t s p cid (compute_effective_time s t) := rfl

theorem apply_command_setPlaymode (shuf : List PyDict → List PyDict) (t : Int) (s : RoomState)
    (p : PyDict) (cid : String) :
    apply_command shuf t s "SET_PLAYMODE" p cid = cmdSetPlaymode shuf t s p := rfl

theorem apply_command_next (shuf : List PyDict → List PyDict) (t : Int) (s : RoomState)
    (p : PyDict) (cid : String) :
    apply_command shuf t s "NEXT" p cid = cmdNextPrev t s cid true := rfl

theorem apply_command_prev (shuf : List PyDict → List PyDict) (t : Int) (s : RoomState)
    (p : PyDict) (cid : String) :
    apply_command shuf t s "PREV" p cid = cmdNextPrev t s cid false := rfl

theorem apply_command_addSongs (shuf : List PyDict → List PyDict) (t : Int) (s : RoomState)
    (p : PyDict) (cid : String) :
    apply_command shuf t s "ADD_SONGS" p cid = cmdAddSongs t s p cid := rfl

/-- C2 counterexample support: a PLAY on the empty default room. -/
theorem d0play_reachable : Reachable d0play := by
  refine ⟨0, Relation.ReflTransGen.single ?_⟩
  exact Step.mk idShuf 200 (default_room_state 0) "PLAY" [] "c2" d0play
    (fun l => List.Perm.refl l) (by with_unfolding_all rfl)

/-- C2: the claim is FALSE — in the reachable state obtained by sending PLAY
to the fresh empty room, the queue is empty yet `isPlaying` is true and a
clock owner is set (no self-healing pass runs on the PLAY branch). -/
theorem empty_queue_invariant_cex :
    Reachable d0play ∧ d0play.queue = [] ∧ d0play.isPlaying = true ∧
      d0play.clockClientId ≠ none := by
  refine ⟨d0play_reachable, rfl, rfl, by decide⟩

/-- C2 (amended): in every reachable state with an empty queue,
`currentSongId` is absent; the `isPlaying=false` / `clockClientId` absent
parts of the claim do not hold (PLAY/PAUSE/TOGGLE_PLAY/SEEK/PROGRESS set
them even on an empty queue). -/
theorem empty_queue_no_current_of_reachable (s : RoomState) (h : Reachable s)
    (hq : s.queue = []) : s.currentSongId = .vnone :=
  (reachable_inv h).1 hq

/-- C2 amended witness: the default room itself. -/
theorem empty_queue_no_current_witness :
    (default_room_state 0).currentSongId = .vnone :=
  empty_queue_no_current_of_reachable (default_room_state 0)
    ⟨0, Relation.ReflTransGen.refl⟩ rfl

/-- C3: in every reachable state with a non-empty queue, `currentSongId`
names (compares `==` to the id of) a song present in the queue. -/
theorem current_song_in_queue_of_reachable (s : RoomState) (h : Reachable s)
    (hq : s.queue ≠ []) :
    ∃ song ∈ s.queue, valEqb (dictGet song "id") s.currentSongId = true :=
  (reachable_inv h).2 hq

theorem stAB_reachable : Reachable stAB := by
  refine ⟨0, Relation.ReflTransGen.single ?_⟩
  exact Step.mk idShuf 5 (default_room_state 0) "ADD_SONGS"
    [("songs", .vlist [.vdict songA, .vdict songB]), ("autoplayIfEmpty", .vbool true)]
    "c1" stAB (fun l => List.Perm.refl l) (by with_unfolding_all rfl)

/-- C3 witness: the two-song room reached by one ADD_SONGS. -/
theorem current_song_in_queue_witness :
    ∃ song ∈ stAB.queue, valEqb (dictGet song "id") stAB.currentSongId = true :=
  current_song_in_queue_of_reachable stAB stAB_reachable (by simp [stAB])

/-- C4: `revision` starts at 0 in the default state, never decreases along
any command sequence, and any single application that changes the rest of
the state increments it by exactly 1. -/
theorem revision_monotonic :
    (∀ t, (default_room_state t).revision = 0) ∧
    (∀ s s', Relation.ReflTransGen Step s s' → s.revision ≤ s'.revision) ∧
    (∀ (shuf : List PyDict → List PyDict) (t : Int) (s : RoomState) (c : String)
      (p : PyDict) (cid : String) (s' : RoomState),
      apply_command shuf t s c p cid = .ok s' →
      stateRest s' ≠ stateRest s → s'.revision = s.revision + 1) := by
  refine ⟨fun _ => rfl, ?_, ?_⟩
  · intro s s' hrt
    induction hrt with
    | refl => exact le_refl _
    | tail _ hstep ih =>
      refine le_trans ih ?_
      cases hstep with
      | mk shuf t s1 c p cid s2 hperm happ =>
        rcases apply_command_rev happ with he | hr
        · rw [he]
        · rw [hr]; omega
  · intro shuf t s c p cid s' happ hchanged
    rcases apply_command_rev happ with he | hr
    · exact absurd (by rw [he]) hchanged
    · exact hr

/-- C4 witness: the PLAY step on the fresh room changes the rest of the state
(isPlaying flips) and bumps the revision from 0 to 1. -/
theorem revision_monotonic_witness :
    d0play.revision = (default_room_state 0).revision + 1 :=
  revision_monotonic.2.2 idShuf 200 (default_room_state 0) "PLAY" [] "c2" d0play
    (by with_unfolding_all rfl)
    (by
      intro hh
      have h2 := congrArg RoomState.isPlaying hh
      simp [stateRest, d0play, default_room_state] at h2)

/-- C5: a PROGRESS from a client that does not own the clock (while an owner
exists) returns the state object unchanged in every field, and does not bump
the revision. -/
theorem progress_nonowner_noop (shuf : List PyDict → List PyDict) (t : Int)
    (s : RoomState) (p : PyDict) (cid owner : String)
    (hclock : s.clockClientId = some owner) (hne : owner ≠ cid) :
    apply_command shuf t s "PROGRESS" p cid = .ok s := by
  rw [apply_command_progress]
  unfold cmdProgress
  rw [if_neg]
  rintro (h1 | h2)
  · rw [hclock] at h1; exact Option.noConfusion h1
  · rw [hclock] at h2
    exact hne (Option.some.inj h2)

/-- C5 witness: a non-owning PROGRESS against the three-song room. -/
theorem progress_nonowner_noop_witness :
    apply_command idShuf 200 st3 "PROGRESS" [("time", Val.vint 3)] "c9" = .ok st3 :=
  progress_nonowner_noop idShuf 200 st3 [("time", Val.vint 3)] "c9" "c1" rfl (by decide)

/-- C6: entering Shuffle from a non-Shuffle mode and immediately leaving it
(any payload mode `m ≠ 2`, any client ids, times and shuffle outcomes, no
ADD/REMOVE in between) restores `queue` to exactly the `originalQueue`
captured at the Shuffle entry. -/
theorem shuffle_round_trip (shuf1 shuf2 : List PyDict → List PyDict) (t1 t2 : Int)
    (s s1 s2 : RoomState) (cid1 cid2 : String) (m : Int)
    (hmode : s.playMode ≠ 2) (hm : m ≠ 2)
    (h1 : apply_command shuf1 t1 s "SET_PLAYMODE" [("playMode", .vint 2)] cid1 = .ok s1)
    (h2 : apply_command shuf2 t2 s1 "SET_PLAYMODE" [("playMode", .vint m)] cid2 = .ok s2) :
    s2.queue = s1.originalQueue := by
  rw [apply_command_setPlaymode] at h1 h2
  unfold cmdSetPlaymode at h1 h2
  rw [show pyInt (pyOr (dictGet [("playMode", Val.vint 2)] "playMode") (Val.vint 0))
      = Except.ok 2 from rfl] at h1
  have hm2 : pyInt (pyOr (dictGet [("playMode", Val.vint m)] "playMode") (Val.vint 0))
      = Except.ok m := by
    by_cases hm0 : m = 0 <;> simp [dictGet, pyOr, pyTruthy, pyInt, hm0]
  rw [hm2] at h2
  dsimp only at h1 h2
  rw [if_neg (fun hh => hmode hh.symm), if_pos rfl] at h1
  injection h1 with h1
  have hpm : s1.playMode = 2 := by
    rw [← h1, ensure_playMode]
    rfl
  have hq1 : s1.queue = _shuffle_keep_current shuf1 s.queue s.currentSongId := by
    rw [← h1, ensure_queue]
    rfl
  have ho1 : s1.originalQueue
      = if s.playMode ≠ 2 ∧ s.originalQueue.isEmpty = true then s.queue else s.originalQueue := by
    rw [← h1, ensure_originalQueue]
    simp only [bump]
    split <;> rfl
  rw [if_neg (fun hh => hm (hpm ▸ hh)), if_neg hm] at h2
  injection h2 with h2
  rw [← h2, ensure_queue]
  simp only [bump]
  by_cases hoe : s1.originalQueue.isEmpty
  · have hcond : ¬(s1.playMode = 2 ∧ (!s1.originalQueue.isEmpty) = true) := by
      intro hh
      simp [hoe] at hh
    rw [if_neg hcond]
    rw [hq1]
    by_cases hse : s.originalQueue.isEmpty
    · rw [ho1, if_pos ⟨hmode, hse⟩] at hoe ⊢
      have : s.queue = [] := by simpa [List.isEmpty_iff] using hoe
      rw [this]
      rfl
    · rw [ho1, if_neg (fun hh => hse hh.2)] at hoe
      exact absurd hoe hse
  · rw [if_pos ⟨hpm, by simpa using hoe⟩]
    split <;> rfl

/-- C6 witness: entering Shuffle on the three-song room with a reversing
permutation, then leaving, restores the original order. -/
theorem shuffle_round_trip_witness :
    apply_command (fun l => l.reverse) 200 st3 "SET_PLAYMODE" [("playMode", Val.vint 2)] "c2"
      = .ok st3sh
    ∧ apply_command idShuf 300 st3sh "SET_PLAYMODE" [("playMode", Val.vint 0)] "c3"
      = .ok st3back
    ∧ st3back.queue = st3sh.originalQueue := by
  refine ⟨by with_unfolding_all rfl, by with_unfolding_all rfl, ?_⟩
  exact shuffle_round_trip (fun l => l.reverse) idShuf 200 300 st3 st3sh st3back "c2" "c3" 0
    (by decide) (by decide) (by with_unfolding_all rfl) (by with_unfolding_all rfl)

/-- C7: NEXT and PREV are no-ops on an empty queue; on a non-empty queue in
LoopOne mode (playMode 1) they keep `currentSongId`, reset the position,
force play and reassign the clock; in the other modes (LoopAll 0 / Shuffle
2) they move to the circularly next/previous index of the current song
(index 0 when the current song is not found), reset the position, force play
and reassign the clock. -/
theorem next_prev_semantics (shuf : List PyDict → List PyDict) (t : Int)
    (s : RoomState) (p : PyDict) (cid : String) :
    (s.queue = [] →
      apply_command shuf t s "NEXT" p cid = .ok s ∧
      apply_command shuf t s "PREV" p cid = .ok s)
    ∧ (s.queue ≠ [] → s.playMode = 1 →
      apply_command shuf t s "NEXT" p cid
        = .ok (bump { s with currentTime := 0, timeUpdatedAt := t,
                             isPlaying := true, clockClientId := some cid }) ∧
      apply_command shuf t s "PREV" p cid
        = .ok (bump { s with currentTime := 0, timeUpdatedAt := t,
                             isPlaying := true, clockClientId := some cid }))
    ∧ (s.queue ≠ [] → s.playMode = 0 ∨ s.playMode = 2 →
      (let found := _find_index s.queue s.currentSongId
       let ci : Int := if found = -1 then 0 else found
       apply_command shuf t s "NEXT" p cid
        = .ok (bump { s with
            currentSongId :=
              dictGet ((s.queue.get? (((ci + 1) % (s.queue.length : Int)).toNat)).getD []) "id",
            currentTime := 0, timeUpdatedAt := t,
            isPlaying := true, clockClientId := some cid }) ∧
      apply_command shuf t s "PREV" p cid
        = .ok (bump { s with
            currentSongId :=
              dictGet ((s.queue.get?
                (((ci - 1 + (s.queue.length : Int)) % (s.queue.length : Int)).toNat)).getD []) "id",
            currentTime := 0, timeUpdatedAt := t,
            isPlaying := true, clockClientId := some cid }))) := by
  refine ⟨?_, ?_, ?_⟩
  · intro hq
    have hise : s.queue.isEmpty = true := by simp [hq]
    constructor
    · rw [apply_command_next]
      unfold cmdNextPrev
      rw [if_pos hise]
    · rw [apply_command_prev]
      unfold cmdNextPrev
      rw [if_pos hise]
  · intro hq hpm
    have hise : ¬(s.queue.isEmpty = true) := by simp [List.isEmpty_iff, hq]
    constructor
    · rw [apply_command_next]
      unfold cmdNextPrev
      rw [if_neg hise]
      dsimp only
      rw [if_pos hpm]
    · rw [apply_command_prev]
      unfold cmdNextPrev
      rw [if_neg hise]
      dsimp only
      rw [if_pos hpm]
  · intro hq hpm
    have hise : ¬(s.queue.isEmpty = true) := by simp [List.isEmpty_iff, hq]
    have hpm1 : ¬(s.playMode = 1) := by rcases hpm with h | h <;> rw [h] <;> decide
    constructor
    · rw [apply_command_next]
      unfold cmdNextPrev
      rw [if_neg hise]
      dsimp only
      rw [if_neg hpm1, if_pos rfl]
    · rw [apply_command_prev]
      unfold cmdNextPrev
      rw [if_neg hise]
      dsimp only
      rw [if_neg hpm1, if_neg (by decide : ¬(false = true))]

/-- C7 witness: queue [A,B,C] in LoopAll with current C — NEXT wraps to A;
and the empty default room ignores NEXT. -/
theorem next_prev_semantics_witness :
    apply_command idShuf 200 st3 "NEXT" [] "c2" = .ok st3next
    ∧ st3next.currentSongId = .vstr "A"
    ∧ apply_command idShuf 200 (default_room_state 0) "NEXT" [] "c2"
        = .ok (default_room_state 0) := by
  refine ⟨?_, rfl, ((next_prev_semantics idShuf 200 (default_room_state 0) [] "c2").1 rfl).1⟩
  have h := ((next_prev_semantics idShuf 200 st3 [] "c2").2.2 (by simp [st3]) (Or.inl (by decide))).1
  rw [h]
  with_unfolding_all rfl

theorem transportTime_falsy {p : PyDict} {key : String} {eff : ℚ}
    (h : pyTruthy (dictGet p key) = false) : transportTime p key eff = .ok eff := by
  have h1 : pyOr (dictGet p key) (pyOr (.vfloat eff) (.vfloat 0))
      = pyOr (.vfloat eff) (.vfloat 0) := by
    simp [pyOr, h]
  unfold transportTime
  rw [h1]
  by_cases he : eff = 0
  · simp [pyOr, pyTruthy, pyFloat, he]
  · simp [pyOr, pyTruthy, pyFloat, he]

theorem transportTime_truthy {p : PyDict} {key : String} {eff q : ℚ}
    (h : pyTruthy (dictGet p key) = true) (hq : pyFloat (dictGet p key) = .ok q) :
    transportTime p key eff = .ok q := by
  have h1 : pyOr (dictGet p key) (pyOr (.vfloat eff) (.vfloat 0)) = dictGet p key := by
    simp [pyOr, h]
  unfold transportTime
  rw [h1]
  exact hq

/-- C8 counterexample: the claim is FALSE for a supplied value of 0 — PAUSE
with `currentTime: 0` on a paused room at position 7 keeps the position at 7
(the falsy 0 falls through `or` to the effective position) instead of
setting it to the supplied 0. -/
theorem transport_supplied_zero_cex :
    apply_command idShuf 200 st3 "PAUSE" [("currentTime", Val.vint 0)] "c2" = .ok c8out
    ∧ c8out.currentTime = 7 ∧ (7 : ℚ) ≠ 0 := by
  refine ⟨by with_unfolding_all rfl, rfl, by norm_num⟩

/-- C8 (amended): PLAY/PAUSE/TOGGLE_PLAY set `isPlaying` accordingly (TOGGLE
flips it), stamp `timeUpdatedAt` with now and assign the clock to the
sender; `currentTime` becomes the supplied value only when that value is
truthy (nonzero), and otherwise — including a supplied 0 — the effective
playback position. -/
theorem transport_time_semantics (shuf : List PyDict → List PyDict) (t : Int)
    (s : RoomState) (p : PyDict) (cid : String) :
    (pyTruthy (dictGet p "currentTime") = false →
      apply_command shuf t s "PLAY" p cid
        = .ok (bump { s with isPlaying := true, currentTime := compute_effective_time s t,
                             timeUpdatedAt := t, clockClientId := some cid })
      ∧ apply_command shuf t s "PAUSE" p cid
        = .ok (bump { s with isPlaying := false, currentTime := compute_effective_time s t,
                             timeUpdatedAt := t, clockClientId := some cid })
      ∧ apply_command shuf t s "TOGGLE_PLAY" p cid
        = .ok (bump { s with isPlaying := !s.isPlaying,
                             currentTime := compute_effective_time s t,
                             timeUpdatedAt := t, clockClientId := some cid }))
    ∧ (∀ q : ℚ, pyTruthy (dictGet p "currentTime") = true →
      pyFloat (dictGet p "currentTime") = .ok q →
      apply_command shuf t s "PLAY" p cid
        = .ok (bump { s with isPlaying := true, currentTime := q,
                             timeUpdatedAt := t, clockClientId := some cid })
      ∧ apply_command shuf t s "PAUSE" p cid
        = .ok (bump { s with isPlaying := false, currentTime := q,
                             timeUpdatedAt := t, clockClientId := some cid })
      ∧ apply_command shuf t s "TOGGLE_PLAY" p cid
        = .ok (bump { s with isPlaying := !s.isPlaying, currentTime := q,
                             timeUpdatedAt := t, clockClientId := some cid })) := by
  constructor
  · intro hv
    refine ⟨?_, ?_, ?_⟩
    · rw [apply_command_play]
      unfold cmdPlay
      rw [transportTime_falsy hv]
    · rw [apply_command_pause]
      unfold cmdPause
      rw [transportTime_falsy hv]
    · rw [apply_command_toggle]
      unfold cmdTogglePlay
      rw [transportTime_falsy hv]
  · intro q hv hq
    refine ⟨?_, ?_, ?_⟩
    · rw [apply_command_play]
      unfold cmdPlay
      rw [transportTime_truthy hv hq]
    · rw [apply_command_pause]
      unfold cmdPause
      rw [transportTime_truthy hv hq]
    · rw [apply_command_toggle]
      unfold cmdTogglePlay
      rw [transportTime_truthy hv hq]

/-- C8 amended witness: a truthy supplied position 5 is taken verbatim. -/
theorem transport_time_semantics_witness :
    apply_command idShuf 200 st3 "PAUSE" [("currentTime", Val.vint 5)] "c2"
      = .ok (bump { st3 with
          isPlaying := false, currentTime := ((5 : Int) : ℚ),
          timeUpdatedAt := 200, clockClientId := some "c2" }) :=
  ((transport_time_semantics idShuf 200 st3 [("currentTime", Val.vint 5)] "c2").2
    ((5 : Int) : ℚ) (by decide) rfl).2.1

theorem viewersGo_snd : ∀ (vs : List PyDict) (creator : Option PyDict) (acc : List PyDict),
    (viewersGo vs creator acc).2
      = acc ++ vs.filter (fun v => !pyTruthy (dictGet v "isCreator"))
  | [], creator, acc => by simp [viewersGo]
  | v :: rest, creator, acc => by
    by_cases hf : pyTruthy (dictGet v "isCreator")
    · rw [show viewersGo (v :: rest) creator acc
          = viewersGo rest (if creator.isNone then some v else creator) acc by
            simp [viewersGo, hf]]
      rw [viewersGo_snd rest _ acc]
      simp [List.filter_cons, hf]
    · rw [show viewersGo (v :: rest) creator acc = viewersGo rest creator (acc ++ [v]) by
        simp [viewersGo, hf]]
      rw [viewersGo_snd rest creator (acc ++ [v])]
      simp [List.filter_cons, hf]

theorem viewersGo_fst_some : ∀ (vs : List PyDict) (c : PyDict) (acc : List PyDict),
    (viewersGo vs (some c) acc).1 = some c
  | [], c, acc => by simp [viewersGo]
  | v :: rest, c, acc => by
    by_cases hf : pyTruthy (dictGet v "isCreator")
    · rw [show viewersGo (v :: rest) (some c) acc = viewersGo rest (some c) acc by
        simp [viewersGo, hf]]
      exact viewersGo_fst_some rest c acc
    · rw [show viewersGo (v :: rest) (some c) acc = viewersGo rest (some c) (acc ++ [v]) by
        simp [viewersGo, hf]]
      exact viewersGo_fst_some rest c (acc ++ [v])

theorem viewersGo_fst_none : ∀ (vs : List PyDict) (acc : List PyDict),
    (viewersGo vs none acc).1 = vs.find? (fun v => pyTruthy (dictGet v "isCreator"))
  | [], acc => by simp [viewersGo]
  | v :: rest, acc => by
    by_cases hf : pyTruthy (dictGet v "isCreator")
    · rw [show viewersGo (v :: rest) none acc = viewersGo rest (some v) acc by
        simp [viewersGo, hf]]
      rw [viewersGo_fst_some rest v acc]
      simp [List.find?_cons, hf]
    · rw [show viewersGo (v :: rest) none acc = viewersGo rest none (acc ++ [v]) by
        simp [viewersGo, hf]]
      rw [viewersGo_fst_none rest (acc ++ [v])]
      simp [List.find?_cons, hf]

/-- C9 counterexample: the claim is FALSE — with two creator-flagged viewer
records, the second one is neither the snapshot's creator nor in its
remaining viewer list: it is dropped from the snapshot entirely. -/
theorem viewers_snapshot_cex :
    (get_viewers_snapshot [viewerA, viewerB]).1 ≠ some viewerB
    ∧ viewerB ∉ (get_viewers_snapshot [viewerA, viewerB]).2 := by
  constructor
  · intro hh
    rw [show (get_viewers_snapshot [viewerA, viewerB]).1 = some viewerA from rfl] at hh
    have h2 := congrArg (fun o => o.map (fun d => dictGet d "displayName")) hh
    simp [viewerA, viewerB, dictGet] at h2
  · rw [show (get_viewers_snapshot [viewerA, viewerB]).2 = [] from rfl]
    exact List.not_mem_nil viewerB

/-- C9 (amended): the snapshot's creator is the first record flagged
`isCreator` (if any) and its viewer list is exactly the records not flagged
`isCreator`, in order; creator-flagged records beyond the first appear in
neither part. -/
theorem viewers_snapshot_partition (vs : List PyDict) :
    (get_viewers_snapshot vs).1 = vs.find? (fun v => pyTruthy (dictGet v "isCreator"))
    ∧ (get_viewers_snapshot vs).2 = vs.filter (fun v => !pyTruthy (dictGet v "isCreator")) := by
  constructor
  · exact viewersGo_fst_none vs []
  · rw [get_viewers_snapshot, viewersGo_snd]
    simp

/-- C10 counterexample: the claim is FALSE for states the self-healing pass
does not fix — on an empty-queue room whose position was seeked to 5 with a
clock owner set, an ADD_SONGS with an empty songs list resets `currentTime`
to 0 and clears `clockClientId` (besides bumping the revision). -/
theorem add_songs_noop_cex :
    apply_command idShuf 200 c10st "ADD_SONGS" [("songs", Val.vlist [])] "c2" = .ok c10out
    ∧ c10out.currentTime ≠ c10st.currentTime
    ∧ c10out.clockClientId ≠ c10st.clockClientId
    ∧ c10out.revision = c10st.revision + 1 := by
  refine ⟨by with_unfolding_all rfl, ?_, ?_, rfl⟩
  · norm_num [c10st, c10out, default_room_state]
  · simp [c10st, c10out, default_room_state]

/-- C10 (amended): an ADD_SONGS whose songs field yields no sanitized songs
and whose `playSongId` is falsy or matches nothing increments the revision
by exactly 1 and leaves queue, originalQueue, currentSongId, isPlaying,
currentTime and clockClientId unchanged — provided the state is one the
self-healing pass does not alter (an empty queue with playback fields
already cleared, or a non-empty queue whose currentSongId resolves);
otherwise the pass may also reset playback fields, as the counterexample
shows. -/
theorem add_songs_noop_amended (shuf : List PyDict → List PyDict) (t : Int)
    (s : RoomState) (p : PyDict) (cid : String) (s' : RoomState) (sl : List Val)
    (hsongs : pyIterate (pyOr (dictGet p "songs") (.vlist [])) = .ok sl)
    (hnod : sanitizeList sl = [])
    (hplay : pyTruthy (dictGet p "playSongId") = false ∨
      _find_index s.queue (.vstr (pyStr (dictGet p "playSongId"))) = -1)
    (heal : (s.queue = [] → s.currentSongId = .vnone ∧ s.isPlaying = false ∧
        s.currentTime = 0 ∧ s.clockClientId = none) ∧
      (s.queue ≠ [] → _find_index s.queue s.currentSongId ≠ -1))
    (happ : apply_command shuf t s "ADD_SONGS" p cid = .ok s') :
    s'.revision = s.revision + 1 ∧ s'.queue = s.queue ∧
    s'.originalQueue = s.originalQueue ∧ s'.currentSongId = s.currentSongId ∧
    s'.isPlaying = s.isPlaying ∧ s'.currentTime = s.currentTime ∧
    s'.clockClientId = s.clockClientId := by
  have happ2 : apply_command shuf t s "ADD_SONGS" p cid
      = .ok (_ensure_current_valid t (bump { s with
          queue := s.queue ++ sanitizeList sl,
          originalQueue := s.originalQueue ++ sanitizeList sl })) := by
    rw [apply_command_addSongs]
    unfold cmdAddSongs
    rw [hsongs]
    dsimp only
    rcases hplay with hfalsy | hfind
    · rw [if_neg (by rw [hfalsy]; simp)]
      rw [if_neg (by rw [hnod]; simp)]
    · by_cases htr : pyTruthy (dictGet p "playSongId") = true
      · rw [if_pos htr]
        rw [show _find_index (s.queue ++ sanitizeList sl)
            (.vstr (pyStr (dictGet p "playSongId"))) = -1 from by
          rw [hnod, List.append_nil]; exact hfind]
        rw [if_neg (by simp)]
      · rw [if_neg htr]
        rw [if_neg (by rw [hnod]; simp)]
  rw [happ] at happ2
  injection happ2 with he
  rw [he, hnod, List.append_nil, List.append_nil]
  by_cases hq0 : s.queue = []
  · obtain ⟨hc, hpl, hct, hck⟩ := heal.1 hq0
    have hE : _ensure_current_valid t (bump { s with
        queue := s.queue, originalQueue := s.originalQueue })
        = { s with
            revision := s.revision + 1, currentSongId := .vnone,
            isPlaying := false, currentTime := 0, timeUpdatedAt := t,
            clockClientId := none } := by
      unfold _ensure_current_valid
      rw [if_pos (by simp [bump, hq0])]
      rfl
    rw [hE]
    exact ⟨rfl, rfl, rfl, hc.symm, hpl.symm, hct.symm, hck.symm⟩
  · have hfind2 : ¬(_find_index (bump { s with
        queue := s.queue, originalQueue := s.originalQueue }).queue
        (bump { s with
          queue := s.queue,
          originalQueue := s.originalQueue }).currentSongId = -1) := by
      simp only [bump]
      exact heal.2 hq0
    have hE : _ensure_current_valid t (bump { s with
        queue := s.queue, originalQueue := s.originalQueue })
        = bump { s with queue := s.queue, originalQueue := s.originalQueue } := by
      unfold _ensure_current_valid
      rw [if_neg (by simp [bump, hq0]), if_neg hfind2]
    rw [hE]
    exact ⟨rfl, rfl, rfl, rfl, rfl, rfl, rfl⟩

/-- C10 amended witness: an empty ADD_SONGS on the clean default room. -/
theorem add_songs_noop_witness :
    apply_command idShuf 200 (default_room_state 0) "ADD_SONGS"
      [("songs", Val.vlist [])] "c2"
      = .ok { (default_room_state 0) with revision := 1, timeUpdatedAt := 200 }
    ∧ ({ (default_room_state 0) with
        revision := 1, timeUpdatedAt := 200 } : RoomState).revision
      = (default_room_state 0).revision + 1
    ∧ ({ (default_room_state 0) with
        revision := 1, timeUpdatedAt := 200 } : RoomState).queue
      = (default_room_state 0).queue := by
  have happ : apply_command idShuf 200 (default_room_state 0) "ADD_SONGS"
      [("songs", Val.vlist [])] "c2"
      = .ok { (default_room_state 0) with revision := 1, timeUpdatedAt := 200 } := by
    with_unfolding_all rfl
  have h := add_songs_noop_amended idShuf 200 (default_room_state 0)
    [("songs", Val.vlist [])] "c2"
    { (default_room_state 0) with revision := 1, timeUpdatedAt := 200 } []
    rfl rfl (Or.inl rfl) ⟨fun _ => ⟨rfl, rfl, rfl, rfl⟩, fun hh => absurd rfl hh⟩ happ
  exact ⟨happ, h.1, h.2.1⟩

/-- C1 counterexample: the claim is FALSE — PLAY_INDEX with a non-numeric
string index raises ValueError from `int(...)` instead of degrading to a
default. -/
theorem apply_command_total_cex :
    apply_command idShuf 0 (default_room_state 0) "PLAY_INDEX"
      [("index", Val.vstr "x")] "c" = .error .valueError := by
  with_unfolding_all rfl

theorem pyInt_or_ok {v : Val} (h : numField v = true) :
    ∃ n, pyInt (pyOr v (.vint 0)) = .ok n := by
  by_cases ht : pyTruthy v = true
  · rw [show pyOr v (.vint 0) = v from by simp [pyOr, ht]]
    cases v with
    | vbool b => exact ⟨_, rfl⟩
    | vint n => exact ⟨n, rfl⟩
    | vfloat q => exact ⟨_, rfl⟩
    | vnone => simp [pyTruthy] at ht
    | vstr s => simp [numField, ht] at h
    | vlist l => simp [numField, ht] at h
    | vdict d => simp [numField, ht] at h
  · rw [show pyOr v (.vint 0) = .vint 0 from by simp [pyOr, ht]]
    exact ⟨0, rfl⟩

theorem pyFloat_ok_of_num {v : Val} (ht : pyTruthy v = true) (h : numField v = true) :
    ∃ q, pyFloat v = .ok q := by
  cases v with
  | vbool b => exact ⟨_, rfl⟩
  | vint n => exact ⟨_, rfl⟩
  | vfloat q => exact ⟨q, rfl⟩
  | vnone => simp [pyTruthy] at ht
  | vstr s => simp [numField, ht] at h
  | vlist l => simp [numField, ht] at h
  | vdict d => simp [numField, ht] at h

theorem transportTime_ok {p : PyDict} {key : String} {eff : ℚ}
    (h : numField (dictGet p key) = true) : ∃ q, transportTime p key eff = .ok q := by
  by_cases ht : pyTruthy (dictGet p key) = true
  · obtain ⟨q, hq⟩ := pyFloat_ok_of_num ht h
    exact ⟨q, transportTime_truthy ht hq⟩
  · exact ⟨eff, transportTime_falsy (by simpa using ht)⟩

theorem seekTime_ok {p : PyDict} (h : numField (dictGet p "time") = true) :
    ∃ q, pyFloat (pyOr (dictGet p "time") (.vfloat 0)) = .ok q := by
  by_cases ht : pyTruthy (dictGet p "time") = true
  · rw [show pyOr (dictGet p "time") (.vfloat 0) = dictGet p "time" from by simp [pyOr, ht]]
    exact pyFloat_ok_of_num ht h
  · rw [show pyOr (dictGet p "time") (.vfloat 0) = .vfloat 0 from by simp [pyOr, ht]]
    exact ⟨0, rfl⟩

theorem pyIterate_songs_ok {v : Val} (h : songsOk v = true) :
    ∃ l, pyIterate (pyOr v (.vlist [])) = .ok l := by
  by_cases ht : pyTruthy v = true
  · rw [show pyOr v (.vlist []) = v from by simp [pyOr, ht]]
    cases v with
    | vlist l => exact ⟨l, rfl⟩
    | vstr s => exact ⟨_, rfl⟩
    | vdict d => exact ⟨_, rfl⟩
    | vnone => simp [pyTruthy] at ht
    | vbool b => simp [songsOk, ht] at h
    | vint n => simp [songsOk, ht] at h
    | vfloat q => simp [songsOk, ht] at h
  · rw [show pyOr v (.vlist []) = .vlist [] from by simp [pyOr, ht]]
    exact ⟨[], rfl⟩

theorem pyIterate_ids_ok {v : Val} (h : idsOk v = true) :
    ∃ l, pyIterate (pyOr v (.vlist [])) = .ok l ∧ l.all hashable = true := by
  by_cases ht : pyTruthy v = true
  · rw [show pyOr v (.vlist []) = v from by simp [pyOr, ht]]
    cases v with
    | vlist l => exact ⟨l, rfl, by simpa [idsOk] using h⟩
    | vstr s =>
      refine ⟨_, rfl, List.all_eq_true.mpr ?_⟩
      intro x hx
      obtain ⟨c, _, hc⟩ := List.mem_map.mp hx
      rw [← hc]
      rfl
    | vdict d =>
      refine ⟨_, rfl, List.all_eq_true.mpr ?_⟩
      intro x hx
      obtain ⟨c, _, hc⟩ := List.mem_map.mp hx
      rw [← hc]
      rfl
    | vnone => simp [pyTruthy] at ht
    | vbool b => simp [idsOk, ht] at h
    | vint n => simp [idsOk, ht] at h
    | vfloat q => simp [idsOk, ht] at h
  · rw [show pyOr v (.vlist []) = .vlist [] from by simp [pyOr, ht]]
    exact ⟨[], rfl, rfl⟩

theorem removeFilterSongs_ok (ids : List Val) :
    ∀ (q : List PyDict), q.all (fun song => hashable (dictGet song "id")) = true →
    ∃ q', removeFilterSongs ids q = .ok q'
  | [], _ => ⟨[], rfl⟩
  | song :: rest, h => by
    simp only [List.all_cons, Bool.and_eq_true] at h
    obtain ⟨q', hq'⟩ := removeFilterSongs_ok ids rest h.2
    refine ⟨if !pyIn (dictGet song "id") ids then song :: q' else q', ?_⟩
    unfold removeFilterSongs
    dsimp only
    rw [h.1]
    simp only [Bool.not_true, Bool.false_eq_true, if_false]
    rw [hq']

theorem tot_addSongs {t : Int} {s : RoomState} {p : PyDict} {cid : String}
    (h : songsOk (dictGet p "songs") = true) : ∃ s', cmdAddSongs t s p cid = .ok s' := by
  obtain ⟨l, hl⟩ := pyIterate_songs_ok h
  unfold cmdAddSongs
  rw [hl]
  exact ⟨_, rfl⟩

theorem tot_removeSongs {t : Int} {s : RoomState} {p : PyDict}
    (hsafe : SafeState s = true) (h : idsOk (dictGet p "ids") = true) :
    ∃ s', cmdRemoveSongs t s p = .ok s' := by
  obtain ⟨l, hl, hall⟩ := pyIterate_ids_ok h
  simp only [SafeState, List.all_append, Bool.and_eq_true] at hsafe
  obtain ⟨q', hq'⟩ := removeFilterSongs_ok l s.queue hsafe.1
  obtain ⟨oq', hoq'⟩ := removeFilterSongs_ok l s.originalQueue hsafe.2
  unfold cmdRemoveSongs
  rw [hl]
  dsimp only
  rw [hall]
  simp only [Bool.not_true, Bool.false_eq_true, if_false]
  rw [hq', hoq']
  exact ⟨_, rfl⟩

theorem tot_playIndex {t : Int} {s : RoomState} {p : PyDict} {cid : String}
    (h : numField (dictGet p "index") = true) : ∃ s', cmdPlayIndex t s p cid = .ok s' := by
  obtain ⟨n, hn⟩ := pyInt_or_ok h
  unfold cmdPlayIndex
  rw [hn]
  dsimp only
  split <;> exact ⟨_, rfl⟩

theorem tot_play {t : Int} {s : RoomState} {p : PyDict} {cid : String} {eff : ℚ}
    (h : numField (dictGet p "currentTime") = true) : ∃ s', cmdPlay t s p cid eff = .ok s' := by
  obtain ⟨q, hq⟩ := transportTime_ok h
  unfold cmdPlay
  rw [hq]
  exact ⟨_, rfl⟩

theorem tot_pause {t : Int} {s : RoomState} {p : PyDict} {cid : String} {eff : ℚ}
    (h : numField (dictGet p "currentTime") = true) : ∃ s', cmdPause t s p cid eff = .ok s' := by
  obtain ⟨q, hq⟩ := transportTime_ok h
  unfold cmdPause
  rw [hq]
  exact ⟨_, rfl⟩

theorem tot_toggle {t : Int} {s : RoomState} {p : PyDict} {cid : String} {eff : ℚ}
    (h : numField (dictGet p "currentTime") = true) :
    ∃ s', cmdTogglePlay t s p cid eff = .ok s' := by
  obtain ⟨q, hq⟩ := transportTime_ok h
  unfold cmdTogglePlay
  rw [hq]
  exact ⟨_, rfl⟩

theorem tot_seek {t : Int} {s : RoomState} {p : PyDict} {cid : String}
    (h : numField (dictGet p "time") = true) : ∃ s', cmdSeek t s p cid = .ok s' := by
  obtain ⟨q, hq⟩ := seekTime_ok h
  unfold cmdSeek
  rw [hq]
  exact ⟨_, rfl⟩

theorem tot_progress {t : Int} {s : RoomState} {p : PyDict} {cid : String} {eff : ℚ}
    (h : numField (dictGet p "time") = true) : ∃ s', cmdProgress t s p cid eff = .ok s' := by
  obtain ⟨q, hq⟩ := transportTime_ok h
  unfold cmdProgress
  split
  · rw [hq]
    exact ⟨_, rfl⟩
  · exact ⟨s, rfl⟩

theorem tot_setPlaymode {shuf : List PyDict → List PyDict} {t : Int} {s : RoomState}
    {p : PyDict} (h : numField (dictGet p "playMode") = true) :
    ∃ s', cmdSetPlaymode shuf t s p = .ok s' := by
  obtain ⟨n, hn⟩ := pyInt_or_ok h
  unfold cmdSetPlaymode
  rw [hn]
  dsimp only
  split <;> exact ⟨_, rfl⟩

theorem tot_nextPrev {t : Int} {s : RoomState} {cid : String} {isNext : Bool} :
    ∃ s', cmdNextPrev t s cid isNext = .ok s' := by
  unfold cmdNextPrev
  split
  · exact ⟨s, rfl⟩
  · dsimp only
    split
    · exact ⟨_, rfl⟩
    · exact ⟨_, rfl⟩

/-- C1 (amended): `apply_command` returns normally for every command name and
client id, provided the queued song ids are hashable and the payload fields
the executed branch converts are numbers/iterables or falsy; unknown command
names are always a no-op returning the state unchanged.  Unconvertible field
values — e.g. a non-numeric string where `int`/`float` is applied, a truthy
non-iterable `songs`, or unhashable ids — raise, as the counterexample
shows. -/
theorem apply_command_total_amended :
    (∀ (shuf : List PyDict → List PyDict) (t : Int) (s : RoomState) (c : String)
      (p : PyDict) (cid : String), SafeState s = true → PayloadSafe c p = true →
      ∃ s', apply_command shuf t s c p cid = .ok s')
    ∧ (∀ (shuf : List PyDict → List PyDict) (t : Int) (s : RoomState) (c : String)
      (p : PyDict) (cid : String), c ∉ knownCommands →
      apply_command shuf t s c p cid = .ok s) := by
  constructor
  · intro shuf t s c p cid hsafe hp
    simp only [apply_command]
    unfold PayloadSafe at hp
    by_cases h1 : c = "ADD_SONGS"
    · rw [if_pos h1]
      rw [if_pos h1] at hp
      exact tot_addSongs hp
    rw [if_neg h1] at hp ⊢
    by_cases h2 : c = "REMOVE_SONGS"
    · rw [if_pos h2]
      rw [if_pos h2] at hp
      exact tot_removeSongs hsafe hp
    rw [if_neg h2] at hp ⊢
    by_cases h3 : c = "PLAY_INDEX"
    · rw [if_pos h3]
      rw [if_pos h3] at hp
      exact tot_playIndex hp
    rw [if_neg h3] at hp ⊢
    by_cases h4 : c = "PLAY"
    · rw [if_pos h4]
      rw [if_pos (Or.inl h4)] at hp
      exact tot_play hp
    rw [if_neg h4]
    by_cases h5 : c = "PAUSE"
    · rw [if_pos h5]
      rw [if_pos (Or.inr (Or.inl h5))] at hp
      exact tot_pause hp
    rw [if_neg h5]
    by_cases h6 : c = "TOGGLE_PLAY"
    · rw [if_pos h6]
      rw [if_pos (Or.inr (Or.inr h6))] at hp
      exact tot_toggle hp
    rw [if_neg h6]
    rw [if_neg (by push_neg; exact ⟨h4, h5, h6⟩)] at hp
    by_cases h7 : c = "SEEK"
    · rw [if_pos h7]
      rw [if_pos (Or.inl h7)] at hp
      exact tot_seek hp
    rw [if_neg h7]
    by_cases h8 : c = "PROGRESS"
    · rw [if_pos h8]
      rw [if_pos (Or.inr h8)] at hp
      exact tot_progress hp
    rw [if_neg h8]
    rw [if_neg (by push_neg; exact ⟨h7, h8⟩)] at hp
    by_cases h9 : c = "SET_PLAYMODE"
    · rw [if_pos h9]
      rw [if_pos h9] at hp
      exact tot_setPlaymode hp
    rw [if_neg h9]
    by_cases h10 : c = "NEXT" ∨ c = "PREV"
    · rw [if_pos h10]
      exact tot_nextPrev
    rw [if_neg h10]
    exact ⟨s, rfl⟩
  · intro shuf t s c p cid hc
    simp only [knownCommands, List.mem_cons, List.not_mem_nil, or_false, not_or] at hc
    obtain ⟨h1, h2, h3, h4, h5, h6, h7, h8, h9, h10, h11⟩ := hc
    simp only [apply_command]
    rw [if_neg h1, if_neg h2, if_neg h3, if_neg h4, if_neg h5, if_neg h6, if_neg h7,
      if_neg h8, if_neg h9, if_neg (by push_neg; exact ⟨h10, h11⟩)]

/-- C1 amended witness: a SEEK with an int time on the fresh room returns
normally, and an unknown command is the identity. -/
theorem apply_command_total_witness :
    (∃ s', apply_command idShuf 0 (default_room_state 0) "SEEK"
      [("time", Val.vint 3)] "c" = .ok s')
    ∧ apply_command idShuf 0 (default_room_state 0) "BOGUS" [] "c"
      = .ok (default_room_state 0) := by
  constructor
  · exact apply_command_total_amended.1 idShuf 0 (default_room_state 0) "SEEK"
      [("time", Val.vint 3)] "c" rfl (by decide)
  · exact apply_command_total_amended.2 idShuf 0 (default_room_state 0) "BOGUS" [] "c"
      (by decide)
